import Mathlib

/-!
Verification development for the DU81-Proxy repository, centered on the
"robust" gamepass proxy variant in `src/index.js`: the resilient transport
(`fetchJsonWithRetries`), the pager (`fetchAllGamepassesForUser`), the
per-user result cache, and the in-flight request deduplication in the
`/gamepasses/:userId` handler.

The JavaScript dynamic values that flow through the code are modelled by the
inductive type `JsVal`.  JS numbers are modelled as integers plus a separate
`nan` constructor: the upstream API's ids and prices are integers, and the
only numeric-string syntax the model parses is optionally-signed decimal
integers (other syntaxes fall to `nan`), which covers every value the
theorems below touch.  `JSON.parse` (a runtime primitive, not repository
code) is modelled abstractly: an HTTP response carries both its raw body
text and the optional `JsVal` its body parses to.
-/

/-- Model of a JavaScript runtime value (the subset the proxy manipulates). -/
inductive JsVal where
  | undefined
  | null
  | bool (b : Bool)
  | num (n : Int)
  | nan
  | str (s : String)
  | arr (xs : List JsVal)
  | obj (fields : List (String × JsVal))

/-- JS truthiness: `undefined`, `null`, `false`, `0`, `NaN` and `""` are falsy. -/
def truthy : JsVal → Bool
  | .undefined => false
  | .null => false
  | .bool b => b
  | .num n => n != 0
  | .nan => false
  | .str s => s != ""
  | .arr _ => true
  | .obj _ => true

/-- JS `a || b`: the first operand if truthy, otherwise the second. -/
def jsOr (a b : JsVal) : JsVal :=
  if truthy a then a else b

/-- `typeof v === "number"` (true for `NaN` as well). -/
def isNumType : JsVal → Bool
  | .num _ => true
  | .nan => true
  | _ => false

/-- `v === 0` for the assetId probe. -/
def isNumZero : JsVal → Bool
  | .num n => n == 0
  | _ => false

/-- `v !== undefined && v !== null`. -/
def presentId : JsVal → Bool
  | .undefined => false
  | .null => false
  | _ => true

/-- `v === undefined || v === null` (elements that `Array.prototype.join` blanks). -/
def isNullish : JsVal → Bool
  | .undefined => true
  | .null => true
  | _ => false

mutual

/-- JS `String(v)` / `ToString` on the modelled values. -/
def jsToString : JsVal → String
  | .undefined => "undefined"
  | .null => "null"
  | .bool b => cond b "true" "false"
  | .num n => toString n
  | .nan => "NaN"
  | .str s => s
  | .arr xs => jsArrJoin xs
  | .obj _ => "[object Object]"

/-- `Array.prototype.toString`: comma-join, with nullish elements as `""`. -/
def jsArrJoin : List JsVal → String
  | [] => ""
  | v :: vs =>
    let s := if isNullish v then "" else jsToString v
    match vs with
    | [] => s
    | _ :: _ => s ++ "," ++ jsArrJoin vs

end

/-- Digits-to-value accumulator for numeric string parsing. -/
def digitsVal (cs : List Char) : Nat :=
  cs.foldl (fun a c => a * 10 + (c.toNat - 48)) 0

/-- ASCII whitespace (the whitespace the modelled strings can contain). -/
def isWs (c : Char) : Bool :=
  c == ' ' || c == '\t' || c == '\n' || c == '\r'

/-- String trim, implemented structurally over the character list so that it
evaluates inside the kernel. -/
def trimChars (s : String) : String :=
  ⟨((s.data.dropWhile isWs).reverse.dropWhile isWs).reverse⟩

/-- JS `Number(s)` on a string: trimmed; empty is 0; optionally signed decimal
integers parse; anything else in the modelled domain is `NaN`. -/
def strToNumber (s : String) : JsVal :=
  let t := trimChars s
  if t = "" then .num 0
  else
    match t.toList with
    | '-' :: rest =>
      if rest ≠ [] ∧ rest.all Char.isDigit then .num (-(digitsVal rest : Int)) else .nan
    | '+' :: rest =>
      if rest ≠ [] ∧ rest.all Char.isDigit then .num (digitsVal rest : Int) else .nan
    | cs =>
      if cs ≠ [] ∧ cs.all Char.isDigit then .num (digitsVal cs : Int) else .nan

/-- JS `Number(v)` coercion on the modelled values. -/
def jsToNumber : JsVal → JsVal
  | .undefined => .nan
  | .null => .num 0
  | .bool b => .num (cond b 1 0)
  | .num n => .num n
  | .nan => .nan
  | .str s => strToNumber s
  | .arr xs => strToNumber (jsToString (.arr xs))
  | .obj fs => strToNumber (jsToString (.obj fs))

/-- JS `parseInt(s, 10)`: trim, optional sign, longest leading digit run;
`none` models `NaN` (no leading digits). -/
def parseIntDec (s : String) : Option Int :=
  let t := trimChars s
  match t.toList with
  | '-' :: rest =>
    let ds := rest.takeWhile Char.isDigit
    if ds = [] then none else some (-(digitsVal ds : Int))
  | '+' :: rest =>
    let ds := rest.takeWhile Char.isDigit
    if ds = [] then none else some (digitsVal ds : Int)
  | cs =>
    let ds := cs.takeWhile Char.isDigit
    if ds = [] then none else some (digitsVal ds : Int)

/-- JS property access `v[k]` for the accesses the proxy performs
(field lookup on objects, `length` on arrays and strings; everything else is
`undefined`).  The source only dereferences values it has checked truthy. -/
def getField (v : JsVal) (k : String) : JsVal :=
  match v with
  | .obj fs =>
    match fs.lookup k with
    | some x => x
    | none => .undefined
  | .arr xs => if k = "length" then .num (xs.length : Int) else .undefined
  | .str s => if k = "length" then .num (s.length : Int) else .undefined
  | _ => .undefined

/-- Substring scan over character lists (structural, kernel-evaluable). -/
def hasSubList (pat : List Char) : List Char → Bool
  | [] => pat.isEmpty
  | c :: cs => pat.isPrefixOf (c :: cs) || hasSubList pat cs

/-- `String.prototype.includes` (used on the content-type header). -/
def jsIncludes (s sub : String) : Bool :=
  hasSubList sub.toList s.toList

/-- `Array.isArray(v) && v.length > 0`. -/
def isArrNonempty : JsVal → Bool
  | .arr (_ :: _) => true
  | _ => false

/-- Elements of an array value (`[]` for non-arrays). -/
def arrElems : JsVal → List JsVal
  | .arr xs => xs
  | _ => []

/-! ## Resilient transport: `fetchJsonWithRetries`

Configuration constants from the top of the robust proxy source. -/

def CACHE_TTL_MS : Int := 60 * 1000

def REQUEST_TIMEOUT_MS : Int := 10 * 1000

def MAX_RETRIES : Nat := 3

def RETRY_BASE_DELAY_MS : Int := 400

def MAX_PAGE_LIMIT : Nat := 100

/-- An HTTP response as the transport observes it.  `bodyJson` is the abstract
result of `JSON.parse` on `bodyText` (`none` when the text is not valid JSON);
`retryAfter` is the `retry-after` header (`none` when absent). -/
structure HttpResp where
  status : Nat
  retryAfter : Option String
  contentType : String
  bodyText : String
  bodyJson : Option JsVal

/-- Outcome of one `fetch` attempt: a response, or a thrown network error
(connection failure, or the per-attempt timeout firing the abort signal). -/
inductive AttemptOutcome where
  | success (r : HttpResp)
  | netErr (msg : String)

/-- The failures `fetchJsonWithRetries` can throw: an `HTTP <status>` error
recorded from a 5xx response, a network error, a JSON `SyntaxError` from
`response.json()`, or the final generic `Failed to fetch after retries`. -/
inductive FetchErr where
  | http (status : Nat)
  | net (msg : String)
  | parse
  | exhausted
deriving DecidableEq

/-- What one iteration of the retry loop does after inspecting the attempt:
return a value to the caller, or record an error (when the branch does) plus a
sleep duration and try again.  Sleep durations are in milliseconds; `none`
models a `NaN` duration (non-numeric `retry-after` header). -/
inductive StepDecision where
  | reply (v : JsVal)
  | retry (recorded : Option FetchErr) (sleepMs : Option Int)

/-- 2xx content-type probe:
`contentType.includes("application/json") || contentType.includes("text/plain")`. -/
def contentRecognized (r : HttpResp) : Bool :=
  jsIncludes r.contentType "application/json" || jsIncludes r.contentType "text/plain"

/-- One iteration of the `while` body of `fetchJsonWithRetries`, for the
attempt with zero-based index `attempt`:
* thrown fetch error: record it, sleep `RETRY_BASE_DELAY_MS * 2 ^ (attempt+1)`
  (the source increments `attempt` before computing this sleep), retry;
* 429/503: sleep `parseInt(retryAfter, 10) * 1000` when the header is truthy,
  else `RETRY_BASE_DELAY_MS * 2 ^ attempt`; nothing recorded; retry;
* other 4xx: return the parsed body, or `{error, body}` when unparseable;
* other 5xx: record `HTTP <status>`, sleep `RETRY_BASE_DELAY_MS * 2 ^ (attempt+1)`, retry;
* otherwise (2xx): recognized content type parses via `response.json()`
  (a parse failure throws, is caught, recorded and retried); unrecognized
  content type parses the text, wrapping an unparseable body as `{raw}`. -/
def attemptStep (o : AttemptOutcome) (attempt : Nat) : StepDecision :=
  match o with
  | .netErr m => .retry (some (.net m)) (some (RETRY_BASE_DELAY_MS * 2 ^ (attempt + 1)))
  | .success r =>
    if r.status = 429 ∨ r.status = 503 then
      let wait : Option Int :=
        match r.retryAfter with
        | some s =>
          if s = "" then some (RETRY_BASE_DELAY_MS * 2 ^ attempt)
          else (parseIntDec s).map (· * 1000)
        | none => some (RETRY_BASE_DELAY_MS * 2 ^ attempt)
      .retry none wait
    else if 400 ≤ r.status ∧ r.status < 500 then
      .reply (match r.bodyJson with
        | some j => j
        | none => .obj [("error", .str ("HTTP " ++ toString r.status)), ("body", .str r.bodyText)])
    else if 500 ≤ r.status then
      .retry (some (.http r.status)) (some (RETRY_BASE_DELAY_MS * 2 ^ (attempt + 1)))
    else
      if contentRecognized r then
        match r.bodyJson with
        | some j => .reply j
        | none => .retry (some .parse) (some (RETRY_BASE_DELAY_MS * 2 ^ (attempt + 1)))
      else
        match r.bodyJson with
        | some j => .reply j
        | none => .reply (.obj [("raw", .str r.bodyText)])

/-- Observable outcome of a `fetchJsonWithRetries` call: the returned value or
thrown error, the number of `fetch` calls performed, and the sleeps awaited. -/
structure FetchOut where
  result : Except FetchErr JsVal
  attemptsMade : Nat
  sleeps : List (Option Int)

/-- The retry loop `while (attempt <= retries) ...` of `fetchJsonWithRetries`,
translated with the standard fuel encoding: the loop condition
`attempt <= retries` becomes structural recursion on `fuel`, maintained equal
to `retries + 1 - attempt` (the number of iterations the condition still
allows), so `fuel = 0` is exactly `attempt > retries`.  `resp` gives the
outcome of the `fetch` call of each attempt index.  On exit the loop throws
`lastErr || new Error("Failed to fetch after retries")`. -/
def fetchGo (resp : Nat → AttemptOutcome) : Nat → Nat → Option FetchErr →
    List (Option Int) → Nat → FetchOut
  | 0, _, lastErr, sleeps, calls => ⟨.error (lastErr.getD .exhausted), calls, sleeps⟩
  | fuel + 1, attempt, lastErr, sleeps, calls =>
    match attemptStep (resp attempt) attempt with
    | .reply v => ⟨.ok v, calls + 1, sleeps⟩
    | .retry recorded w =>
      fetchGo resp fuel (attempt + 1)
        (match recorded with
         | some e => some e
         | none => lastErr)
        (sleeps ++ [w]) (calls + 1)

/-- `fetchJsonWithRetries(url, opts, retries)`: run the retry loop from
attempt 0 with no recorded error; `retries + 1` iterations are allowed. -/
def fetchJsonWithRetries (resp : Nat → AttemptOutcome) (retries : Nat) : FetchOut :=
  fetchGo resp (retries + 1) 0 none [] 0

/-- An attempt outcome is transient when the loop retries after it instead of
returning: thrown errors, 429/503, other 5xx, and 2xx bodies that fail
`response.json()` under a recognized content type. -/
def transientOutcome : AttemptOutcome → Bool
  | .netErr _ => true
  | .success r =>
    if r.status = 429 ∨ r.status = 503 then true
    else if 400 ≤ r.status ∧ r.status < 500 then false
    else if 500 ≤ r.status then true
    else if contentRecognized r then r.bodyJson.isNone
    else false

/-! ## Pager: `fetchAllGamepassesForUser` -/

/-- A record pushed onto `collected`: `{ id, name, price }` with the raw
JS values the normalization produced (the handler coerces them later). -/
structure NRec where
  id : JsVal
  name : JsVal
  price : JsVal

/-- Id derivation in the primary `data.data` branch:
`const id = gp.assetId || gp.assetId === 0 ? gp.assetId : (gp.id || gp.assetId);`
(JS precedence: the ternary condition is `gp.assetId || (gp.assetId === 0)`). -/
def primId (gp : JsVal) : JsVal :=
  let aid := getField gp "assetId"
  if truthy aid || isNumZero aid then aid else jsOr (getField gp "id") aid

/-- Id derivation in the bare-array branch and in fallback A:
`const id = gp.assetId || gp.id || gp.assetId;`. -/
def aliasId (gp : JsVal) : JsVal :=
  let aid := getField gp "assetId"
  jsOr (jsOr aid (getField gp "id")) aid

/-- `const name = gp.name || gp.title || ("Gamepass " + id);`. -/
def recName (gp idv : JsVal) : JsVal :=
  jsOr (jsOr (getField gp "name") (getField gp "title"))
    (.str ("Gamepass " ++ jsToString idv))

/-- `const price = (typeof gp.price === "number") ? gp.price : (gp.price ? Number(gp.price) : 0);`. -/
def recPrice (gp : JsVal) : JsVal :=
  let p := getField gp "price"
  if isNumType p then p else if truthy p then jsToNumber p else .num 0

/-- Per-record normalization in the primary `data.data` branch; the record is
pushed only `if (id !== undefined && id !== null)`. -/
def normPrimary (gp : JsVal) : Option NRec :=
  if presentId (primId gp) then some ⟨primId gp, recName gp (primId gp), recPrice gp⟩ else none

/-- Per-record normalization in the bare-array branch and in fallback A, with
the alias id rule and the same name/price derivation and presence filter. -/
def normAlias (gp : JsVal) : Option NRec :=
  if presentId (aliasId gp) then some ⟨aliasId gp, recName gp (aliasId gp), recPrice gp⟩ else none

/-- Records one page contributes to `collected`: the `data.data` branch when
`Array.isArray(data.data) && data.data.length > 0`, else the bare-array branch
when `Array.isArray(data) && data.length > 0`, else nothing. -/
def pageRecords (data : JsVal) : List NRec :=
  if isArrNonempty (getField data "data") then
    (arrElems (getField data "data")).filterMap normPrimary
  else if isArrNonempty data then
    (arrElems data).filterMap normAlias
  else []

/-- JS `v > 0` (the `length` probe): with a number on the right, the
relational comparison converts the left operand with `ToNumber`; `NaN`
(hence also `undefined`) compares false. -/
def jsGtZero (v : JsVal) : Bool :=
  match jsToNumber v with
  | .num n => decide (0 < n)
  | _ => false

/-- The continuation cursor a page yields:
`cursor = (data.nextPageCursor && data.nextPageCursor.length > 0) ? data.nextPageCursor : null`.
Any truthy value whose `length` property compares greater than 0 continues the
loop — nonempty strings in normal runs, but also nonempty arrays, or objects
carrying a positive numeric (or numeric-string) `length` field; every other
value (including empty strings and arrays, and values with no usable `length`)
yields a null cursor. -/
def cursorOf (data : JsVal) : Option JsVal :=
  let c := getField data "nextPageCursor"
  if truthy c && jsGtZero (getField c "length") then some c else none

/-- A transport result after which the pagination `do ... while` loop runs
another iteration: a delivered value that is truthy and yields a cursor.
(When the cursor is `null` the safety guard `if (!cursor && ...) break` or the
`while (cursor)` condition ends the loop; `if (!data) break` ends it on a
falsy value; a thrown error aborts it.) -/
def pageContinues (r : Except FetchErr JsVal) : Bool :=
  match r with
  | .ok d => truthy d && (cursorOf d).isSome
  | .error _ => false

/-- The primary pagination loop of `fetchAllGamepassesForUser`.  `prim i` is
the transport result of the `i`-th primary call; `fuel` bounds the number of
iterations the model unrolls (`none` = the loop was still running when `fuel`
ran out, which real executions never observe on cursor-terminating upstreams).
Returns the thrown error or the final `collected`, paired with the index after
the last call made (= total calls when started at `i = 0`). -/
def pagerLoop (prim : Nat → Except FetchErr JsVal) :
    Nat → Nat → List NRec → Option (Except FetchErr (List NRec) × Nat)
  | 0, _, _ => none
  | fuel + 1, i, acc =>
    match prim i with
    | .error e => some (.error e, i + 1)
    | .ok data =>
      if truthy data then
        let acc2 := acc ++ pageRecords data
        match cursorOf data with
        | some _ => pagerLoop prim fuel (i + 1) acc2
        | none => some (.ok acc2, i + 1)
      else some (.ok acc, i + 1)

/-- Observable outcome of `fetchAllGamepassesForUser`: result, number of
primary transport calls, number of fallback transport calls. -/
structure PagerOut where
  result : Except FetchErr (List NRec)
  primCalls : Nat
  fbCalls : Nat

/-- `fetchAllGamepassesForUser(userId)`: run the primary pagination loop;
when it completes with zero collected records, make one best-effort call to
fallback A (`fb` is its transport result), ignoring its failures and
normalizing its `data` array with `normAlias`; a thrown pagination error
propagates and skips the fallback. -/
def fetchAllGamepassesForUser (prim : Nat → Except FetchErr JsVal)
    (fb : Except FetchErr JsVal) (fuel : Nat) : Option PagerOut :=
  match pagerLoop prim fuel 0 [] with
  | none => none
  | some (.error e, n) => some ⟨.error e, n, 0⟩
  | some (.ok collected, n) =>
    if collected.length = 0 then
      match fb with
      | .error _ => some ⟨.ok collected, n, 1⟩
      | .ok fbv =>
        if truthy fbv && isArrNonempty (getField fbv "data") then
          some ⟨.ok (collected ++ (arrElems (getField fbv "data")).filterMap normAlias), n, 1⟩
        else some ⟨.ok collected, n, 1⟩
    else some ⟨.ok collected, n, 0⟩

/-! ## Request handler: final normalization, result cache, in-flight dedupe -/

/-- The handler's final normalization map over the pager's records:
`{ id: Number(p.id), name: String(p.name || ("Gamepass " + p.id)),
   price: (typeof p.price === "number") ? p.price : (p.price ? Number(p.price) : 0) }`. -/
def finalNormalize (p : NRec) : NRec :=
  ⟨jsToNumber p.id,
   .str (jsToString (jsOr p.name (.str ("Gamepass " ++ jsToString p.id)))),
   if isNumType p.price then p.price
   else if truthy p.price then jsToNumber p.price
   else .num 0⟩

/-- A result cache entry: `{ expiresAt: number, data: array }`. -/
structure CacheEntry where
  expiresAt : Int
  data : List NRec

/-- `cache.set(userId, { expiresAt: Date.now() + CACHE_TTL_MS, data })`:
replaces any prior entry for the key. -/
def cacheSet (c : List (String × CacheEntry)) (k : String) (recs : List NRec)
    (now : Int) : List (String × CacheEntry) :=
  (k, ⟨now + CACHE_TTL_MS, recs⟩) :: c.filter (fun p => p.1 != k)

/-- The handler's cache read: `cache.get(userId)` followed by
`if (cached && cached.expiresAt > now)` — a hit only strictly before expiry. -/
def cacheGetFresh (c : List (String × CacheEntry)) (k : String) (now : Int) :
    Option (List NRec) :=
  match c.lookup k with
  | some e => if now < e.expiresAt then some e.data else none
  | none => none

/-- Completion of one traversal promise: the resolved records or the
rejection it was rejected with. -/
inductive TaskResult where
  | ok (recs : List NRec)
  | err (e : FetchErr)

/-- Shared state of the gamepass handler: the `inFlight` map (userId to the
id of the pending traversal task), a counter of task ids, the log of
`fetchAllGamepassesForUser` invocations (one entry pushed per started
traversal), which task each waiting caller awaits, the results delivered to
callers, and the `cache` map. -/
structure CoordState where
  inFlight : List (String × Nat)
  nextTask : Nat
  invoked : List String
  waiting : List (Nat × Nat)
  received : List (Nat × TaskResult)
  cache : List (String × CacheEntry)

/-- A caller (on a cache miss) reaching the dedupe section.  Node's event
loop runs this section atomically: the async traversal body suspends at its
first network await before `inFlight.set(userId, promise)` executes, so the
`inFlight.has` probe and the registration admit no interleaving.  If a task
for the key is registered the caller awaits it; otherwise it registers a
fresh task (invoking `fetchAllGamepassesForUser` exactly once) and awaits it. -/
def stepArrive (s : CoordState) (cid : Nat) (k : String) : CoordState :=
  match s.inFlight.lookup k with
  | some t => { s with waiting := (cid, t) :: s.waiting }
  | none =>
    { s with
      inFlight := (k, s.nextTask) :: s.inFlight
      waiting := (cid, s.nextTask) :: s.waiting
      invoked := k :: s.invoked
      nextTask := s.nextTask + 1 }

/-- Settlement of the traversal promise registered for key `k`.  On success
the promise body runs `cache.set` (inside `try`); on failure it does not; the
`finally` block deletes the in-flight registration in both cases; every
caller awaiting the task observes the settled result. -/
def stepComplete (s : CoordState) (k : String) (r : TaskResult) (now : Int) : CoordState :=
  let newCache :=
    match r with
    | .ok recs => cacheSet s.cache k recs now
    | .err _ => s.cache
  match s.inFlight.lookup k with
  | some t =>
    { s with
      cache := newCache
      inFlight := s.inFlight.filter (fun p => p.1 != k)
      waiting := s.waiting.filter (fun p => p.2 != t)
      received := s.received ++ (s.waiting.filter (fun p => p.2 == t)).map (fun p => (p.1, r)) }
  | none =>
    { s with
      cache := newCache
      inFlight := s.inFlight.filter (fun p => p.1 != k) }

/-- Concrete two-page upstream: first page carries one record and cursor "x",
second page carries one record and a null cursor. -/
def rawA : JsVal := .obj [("assetId", .num 1), ("name", .str "A"), ("price", .num 10)]

def rawB : JsVal := .obj [("assetId", .num 2), ("name", .str "B"), ("price", .num 20)]

def pageA : JsVal := .obj [("data", .arr [rawA]), ("nextPageCursor", .str "x")]

def pageB : JsVal := .obj [("data", .arr [rawB]), ("nextPageCursor", .null)]

def prim2 : Nat → Except FetchErr JsVal := fun i => if i = 0 then .ok pageA else .ok pageB

/-- A first page with no records and no cursor. -/
def emptyPage : JsVal := .obj [("data", .arr [])]

/-! ## Helper lemmas -/

theorem presentId_ne {v : JsVal} (h : presentId v = true) : v ≠ .undefined ∧ v ≠ .null := by
  cases v <;> simp_all [presentId]

theorem jsOr_of_not_truthy {a : JsVal} (b : JsVal) (h : truthy a = false) : jsOr a b = b := by
  simp [jsOr, h]

theorem jsOr_self (a : JsVal) : jsOr a a = a := by
  simp [jsOr]

theorem lookup_filter_ne_self {α : Type} (l : List (String × α)) (k : String) :
    (l.filter (fun p => p.1 != k)).lookup k = none := by
  induction l with
  | nil => rfl
  | cons hd tl ih =>
    rcases hd with ⟨a, b⟩
    by_cases hk : a = k
    · simp [List.filter_cons, hk, ih]
    · have h1 : (a != k) = true := by simpa [bne_iff_ne] using hk
      have h2 : (k == a) = false := by simpa [beq_eq_false_iff_ne] using Ne.symm hk
      simp [List.filter_cons, h1, List.lookup, h2, ih]

theorem lookup_none_keys {α : Type} (l : List (String × α)) (k : String)
    (h : l.lookup k = none) : k ∉ l.map Prod.fst := by
  induction l with
  | nil => simp
  | cons hd tl ih =>
    simp only [List.lookup] at h
    rcases hbeq : k == hd.1 with _ | _
    · rw [hbeq] at h
      simp only [List.map_cons, List.mem_cons]
      push_neg
      refine ⟨fun he => ?_, ih h⟩
      rw [he] at hbeq
      simp at hbeq
    · rw [hbeq] at h
      simp at h

/-! ## Claim theorems: result cache (C8) and cache atomicity (C10) -/

/-- C8: for every key, `put(key, R)` stores `R` with `expiresAt = now + cacheTtlMs`,
entirely overwriting any prior entry for that key; a subsequent `get(key)` at
time `t` returns `R` exactly when `t` is strictly before `expiresAt`, and
behaves as absent once the TTL has elapsed. -/
theorem cache_freshness (c : List (String × CacheEntry)) (k : String)
    (R : List NRec) (now t : Int) :
    cacheGetFresh (cacheSet c k R now) k t =
      if t < now + CACHE_TTL_MS then some R else none := by
  simp [cacheGetFresh, cacheSet, List.lookup]

/-- C10: if the traversal for a key fails, the result cache is left unchanged
(an error never installs, clears, or refreshes an entry); the cache is written,
with a fresh TTL window, only when the traversal completes successfully. -/
theorem cache_write_only_on_success (s : CoordState) (k : String) (e : FetchErr)
    (recs : List NRec) (now : Int) :
    (stepComplete s k (.err e) now).cache = s.cache ∧
    (stepComplete s k (.ok recs) now).cache = cacheSet s.cache k recs now := by
  constructor <;>
    · unfold stepComplete
      rcases s.inFlight.lookup k with _ | t <;> rfl

/-! ## Claim theorems: record normalization (C3) -/

/-- C3 counterexample: the raw record `{assetId: 7, title: "T", price: "abc"}`
has no `name`, yet is normalized with name `"T"` (the `title` alias), not
`"Gamepass 7"`; and its price is non-numeric, yet normalizes to `NaN`
(`Number("abc")`), not `0`.  This refutes the claim that a record missing
`name` gets exactly `"Gamepass " + id` and that a non-numeric price gets
exactly `0`. -/
theorem record_norm_cex :
    normPrimary (.obj [("assetId", .num 7), ("title", .str "T"), ("price", .str "abc")]) =
      some ⟨.num 7, .str "T", .nan⟩ ∧
    JsVal.str "T" ≠ .str ("Gamepass " ++ jsToString (JsVal.num 7)) ∧
    JsVal.nan ≠ .num 0 :=
  ⟨rfl, fun h => absurd (JsVal.str.inj h) (by decide), fun h => nomatch h⟩

/-- C3 amended: every record emitted by the per-record normalization has an id
that is neither `undefined` nor `null` (a record whose `assetId` and `id`
fields are both absent is dropped); a record missing both `name` and `title`
gets name exactly `"Gamepass " + id` (also after the handler's final map); a
record whose `price` field is absent gets price exactly `0`, and a
number-typed price is kept unchanged (both properties also surviving the
handler's final map). -/
theorem record_norm_amended (gp : JsVal) (r : NRec) (h : normPrimary gp = some r) :
    (r.id ≠ .undefined ∧ r.id ≠ .null) ∧
    (truthy (getField gp "name") = false → truthy (getField gp "title") = false →
      r.name = .str ("Gamepass " ++ jsToString r.id) ∧
      (finalNormalize r).name = .str ("Gamepass " ++ jsToString r.id)) ∧
    (getField gp "price" = .undefined → r.price = .num 0 ∧ (finalNormalize r).price = .num 0) ∧
    (∀ x : Int, getField gp "price" = .num x →
      r.price = .num x ∧ (finalNormalize r).price = .num x) ∧
    (getField gp "assetId" = .undefined → getField gp "id" = .undefined → False) := by
  unfold normPrimary at h
  split at h
  case isFalse => exact absurd h (by simp)
  case isTrue hpres =>
    injection h with h2
    subst h2
    refine ⟨presentId_ne hpres, ?_, ?_, ?_, ?_⟩
    · intro hn ht
      have hname : recName gp (primId gp) = .str ("Gamepass " ++ jsToString (primId gp)) := by
        unfold recName
        rw [jsOr_of_not_truthy _ hn, jsOr_of_not_truthy _ ht]
      constructor
      · exact hname
      · show JsVal.str (jsToString (jsOr _ _)) = _
        rw [hname, jsOr_self]
        rfl
    · intro hp
      have hprice : recPrice gp = .num 0 := by
        unfold recPrice
        rw [hp]
        rfl
      exact ⟨hprice, by simp [finalNormalize, hprice, isNumType]⟩
    · intro x hp
      have hprice : recPrice gp = .num x := by
        unfold recPrice
        rw [hp]
        rfl
      exact ⟨hprice, by simp [finalNormalize, hprice, isNumType]⟩
    · intro ha hid
      rw [primId, ha, hid] at hpres
      simp [truthy, isNumZero, jsOr, presentId] at hpres

/-- Witness for `record_norm_amended` at the concrete raw record `{assetId: 5}`. -/
theorem record_norm_amended_witness :
    normPrimary (.obj [("assetId", .num 5)]) =
      some ⟨.num 5, .str "Gamepass 5", .num 0⟩ ∧
    (JsVal.num 5 ≠ .undefined ∧ JsVal.num 5 ≠ .null) :=
  ⟨rfl,
    (record_norm_amended (.obj [("assetId", .num 5)])
      ⟨.num 5, .str "Gamepass 5", .num 0⟩ rfl).1⟩

/-! ## Claim theorems: backoff policy (C4) -/

/-- C4 counterexample: a run of plain 500 responses with the default 3
retries sleeps 800, 1600, 3200, 6400 ms — the sleep after the failed attempt
of zero-based index 0 is `retryBaseDelayMs * 2 ^ 1 = 800`, not the claimed
`retryBaseDelayMs * 2 ^ 0 = 400` (the source increments `attempt` before
computing the 5xx sleep). -/
theorem backoff_policy_cex :
    (fetchJsonWithRetries (fun _ => .success ⟨500, none, "", "", none⟩) MAX_RETRIES).sleeps =
      [some 800, some 1600, some 3200, some 6400] ∧
    (800 : Int) ≠ RETRY_BASE_DELAY_MS * 2 ^ 0 :=
  ⟨rfl, by decide⟩

/-- C4 amended: for the attempt of zero-based index `i`, a 429/503 response
with a numeric truthy `retry-after` hint `h` makes the loop sleep exactly
`h * 1000` ms before the next attempt; a 429/503 without the header sleeps
exactly `retryBaseDelayMs * 2 ^ i`; every other 5xx response sleeps exactly
`retryBaseDelayMs * 2 ^ (i + 1)` — one doubling step beyond the claimed
`2 ^ i`. -/
theorem backoff_policy_amended (resp : Nat → AttemptOutcome) (fuel i : Nat)
    (le : Option FetchErr) (sl : List (Option Int)) (cl : Nat) :
    (∀ (r : HttpResp) (s : String) (hint : Int),
        resp i = .success r → (r.status = 429 ∨ r.status = 503) →
        r.retryAfter = some s → s ≠ "" → parseIntDec s = some hint →
        fetchGo resp (fuel + 1) i le sl cl =
          fetchGo resp fuel (i + 1) le (sl ++ [some (hint * 1000)]) (cl + 1)) ∧
    (∀ r : HttpResp,
        resp i = .success r → (r.status = 429 ∨ r.status = 503) → r.retryAfter = none →
        fetchGo resp (fuel + 1) i le sl cl =
          fetchGo resp fuel (i + 1) le
            (sl ++ [some (RETRY_BASE_DELAY_MS * 2 ^ i)]) (cl + 1)) ∧
    (∀ r : HttpResp,
        resp i = .success r → 500 ≤ r.status → r.status ≠ 503 →
        fetchGo resp (fuel + 1) i le sl cl =
          fetchGo resp fuel (i + 1) (some (.http r.status))
            (sl ++ [some (RETRY_BASE_DELAY_MS * 2 ^ (i + 1))]) (cl + 1)) := by
  refine ⟨?_, ?_, ?_⟩
  · intro r s hint hresp hst hra hs hparse
    simp only [fetchGo, hresp, attemptStep, hst, if_true, hra, hs, if_false, hparse]
    rfl
  · intro r hresp hst hra
    simp only [fetchGo, hresp, attemptStep, hst, if_true, hra]
  · intro r hresp h5 hne
    have h1 : ¬(r.status = 429 ∨ r.status = 503) := by omega
    have h2 : ¬(400 ≤ r.status ∧ r.status < 500) := by omega
    simp only [fetchGo, hresp, attemptStep, h1, h2, h5, if_true, if_false]

/-- Witness for `backoff_policy_amended`: one 429 response with hint `"2"`
sleeps exactly 2000 ms before the next attempt. -/
theorem backoff_policy_amended_witness :
    parseIntDec "2" = some 2 ∧
    fetchGo (fun _ => .success ⟨429, some "2", "", "", none⟩) 4 0 none [] 0 =
      fetchGo (fun _ => .success ⟨429, some "2", "", "", none⟩) 3 1 none [some 2000] 1 :=
  ⟨rfl,
    (backoff_policy_amended (fun _ => .success ⟨429, some "2", "", "", none⟩) 3 0 none [] 0).1
      ⟨429, some "2", "", "", none⟩ "2" 2 rfl (Or.inl rfl) rfl (by decide) rfl⟩

/-! ## Claim theorems: malformed 2xx handling (C9) -/

/-- C9 counterexample: a 200 response declaring `application/json` whose body
`"oops"` does not parse is NOT returned wrapped as `{raw: "oops"}` — the
`response.json()` throw is caught by the retry loop's catch, retried, and the
call ultimately fails with the parse error. -/
theorem malformed_2xx_cex :
    (fetchJsonWithRetries (fun _ => .success ⟨200, none, "application/json", "oops", none⟩)
        MAX_RETRIES).result = .error .parse ∧
    (Except.error FetchErr.parse : Except FetchErr JsVal) ≠
      .ok (.obj [("raw", .str "oops")]) :=
  ⟨rfl, fun h => nomatch h⟩

/-- C9 amended: for a response with status < 400 at any attempt, a parseable
body is returned parsed (whatever the content type); an unparseable body under
an unrecognized content type is wrapped and returned verbatim as
`{raw: text}`; an unparseable body under a recognized content type
(`application/json` or `text/plain`) is instead treated as a transient
failure: the parse error is recorded and the loop sleeps and retries. -/
theorem malformed_2xx_amended (resp : Nat → AttemptOutcome) (r : HttpResp)
    (i fuel : Nat) (le : Option FetchErr) (sl : List (Option Int)) (cl : Nat)
    (hresp : resp i = .success r) (hst : r.status < 400) :
    (∀ j : JsVal, r.bodyJson = some j →
      fetchGo resp (fuel + 1) i le sl cl = ⟨.ok j, cl + 1, sl⟩) ∧
    (r.bodyJson = none → contentRecognized r = false →
      fetchGo resp (fuel + 1) i le sl cl =
        ⟨.ok (.obj [("raw", .str r.bodyText)]), cl + 1, sl⟩) ∧
    (r.bodyJson = none → contentRecognized r = true →
      fetchGo resp (fuel + 1) i le sl cl =
        fetchGo resp fuel (i + 1) (some .parse)
          (sl ++ [some (RETRY_BASE_DELAY_MS * 2 ^ (i + 1))]) (cl + 1)) := by
  have h1 : ¬(r.status = 429 ∨ r.status = 503) := by omega
  have h2 : ¬(400 ≤ r.status ∧ r.status < 500) := by omega
  have h3 : ¬(500 ≤ r.status) := by omega
  refine ⟨?_, ?_, ?_⟩
  · intro j hj
    rcases hrec : contentRecognized r
    · simp only [fetchGo, hresp, attemptStep, h1, h2, h3, if_false, hrec, hj]
      rfl
    · simp only [fetchGo, hresp, attemptStep, h1, h2, h3, if_false, hrec, hj, if_true]
  · intro hj hrec
    simp only [fetchGo, hresp, attemptStep, h1, h2, h3, if_false, hrec, hj]
    rfl
  · intro hj hrec
    simp only [fetchGo, hresp, attemptStep, h1, h2, h3, if_false, hrec, hj, if_true]

/-- Witness for `malformed_2xx_amended`: a 200 `text/html` response with
unparseable body `"hello"` is returned as `{raw: "hello"}` by the first
attempt. -/
theorem malformed_2xx_amended_witness :
    (200 : Nat) < 400 ∧
    fetchGo (fun _ => .success ⟨200, none, "text/html", "hello", none⟩) 4 0 none [] 0 =
      ⟨.ok (.obj [("raw", .str "hello")]), 1, []⟩ :=
  ⟨by decide,
    ((malformed_2xx_amended (fun _ => .success ⟨200, none, "text/html", "hello", none⟩)
      ⟨200, none, "text/html", "hello", none⟩ 0 3 none [] 0 rfl (by decide)).2.1 rfl rfl)⟩

/-! ## Claim theorems: retry exhaustion (C5) -/

theorem fetchGo_calls_le (resp : Nat → AttemptOutcome) :
    ∀ (fuel i : Nat) (le : Option FetchErr) (sl : List (Option Int)) (cl : Nat),
      (fetchGo resp fuel i le sl cl).attemptsMade ≤ cl + fuel := by
  intro fuel
  induction fuel with
  | zero => intro i le sl cl; simp [fetchGo]
  | succ f ih =>
    intro i le sl cl
    simp only [fetchGo]
    split
    · dsimp only
      omega
    · exact le_trans (ih _ _ _ _) (by omega)

theorem transient_attemptStep (o : AttemptOutcome) (i : Nat)
    (h : transientOutcome o = true) : ∃ e w, attemptStep o i = .retry e w := by
  cases o with
  | netErr m => exact ⟨_, _, rfl⟩
  | success r =>
    simp only [transientOutcome] at h
    unfold attemptStep
    by_cases h1 : r.status = 429 ∨ r.status = 503
    · simp only [h1, if_true]
      exact ⟨_, _, rfl⟩
    · by_cases h2 : 400 ≤ r.status ∧ r.status < 500
      · simp [h1, h2] at h
      · by_cases h3 : 500 ≤ r.status
        · simp only [h1, h2, h3, if_false, if_true]
          exact ⟨_, _, rfl⟩
        · rcases hrec : contentRecognized r with _ | _
          · simp [h1, h2, h3, hrec] at h
          · have hb : r.bodyJson = none := by
              simp [h1, h2, h3, hrec, Option.isNone_iff_eq_none] at h
              exact h
            simp only [h1, h2, h3, hrec, if_false, if_true, hb]
            exact ⟨_, _, rfl⟩

theorem fetchGo_all_transient (resp : Nat → AttemptOutcome) :
    ∀ (fuel i : Nat) (le : Option FetchErr) (sl : List (Option Int)) (cl : Nat),
      (∀ j, i ≤ j → j < i + fuel → transientOutcome (resp j) = true) →
      ∃ e, (fetchGo resp fuel i le sl cl).result = .error e := by
  intro fuel
  induction fuel with
  | zero => intro i le sl cl _; exact ⟨_, rfl⟩
  | succ f ih =>
    intro i le sl cl hall
    obtain ⟨e, w, hstep⟩ :=
      transient_attemptStep (resp i) i (hall i (Nat.le_refl i) (by omega))
    simp only [fetchGo, hstep]
    exact ih (i + 1) _ _ _ (fun j hj1 hj2 => hall j (by omega) (by omega))

theorem fetchGo_last_http (resp : Nat → AttemptOutcome) (retries : Nat) (r : HttpResp)
    (hr : resp retries = .success r) (h5 : 500 ≤ r.status) (hne : r.status ≠ 503) :
    ∀ (fuel i : Nat) (le : Option FetchErr) (sl : List (Option Int)) (cl : Nat),
      i + fuel = retries + 1 → i ≤ retries →
      (∀ j, i ≤ j → j < retries → transientOutcome (resp j) = true) →
      (fetchGo resp fuel i le sl cl).result = .error (.http r.status) := by
  intro fuel
  induction fuel with
  | zero => intro i le sl cl hf hle _; omega
  | succ f ih =>
    intro i le sl cl hf hle hall
    by_cases heq : i = retries
    · subst heq
      have hf0 : f = 0 := by omega
      subst hf0
      have h1 : ¬(r.status = 429 ∨ r.status = 503) := by omega
      have h2 : ¬(400 ≤ r.status ∧ r.status < 500) := by omega
      simp only [fetchGo, hr, attemptStep, h1, h2, h5, if_false, if_true]
      rfl
    · have hlt : i < retries := by omega
      obtain ⟨e, w, hstep⟩ :=
        transient_attemptStep (resp i) i (hall i (Nat.le_refl i) hlt)
      simp only [fetchGo, hstep]
      exact ih (i + 1) _ _ _ (by omega) (by omega)
        (fun j hj1 hj2 => hall j (by omega) hj2)

/-- C5 counterexample: with every attempt answered by a plain 429 (the last
bad HTTP status of the run), the call makes its 4 attempts and then throws the
generic `Failed to fetch after retries` error — the 429/503 branch records
nothing in `lastErr`, so the surfaced failure is NOT the last encountered bad
status. -/
theorem retry_exhaustion_cex :
    (fetchJsonWithRetries (fun _ => .success ⟨429, none, "", "", none⟩) MAX_RETRIES).result =
      .error .exhausted ∧
    (fetchJsonWithRetries (fun _ => .success ⟨429, none, "", "", none⟩)
        MAX_RETRIES).attemptsMade = 4 ∧
    FetchErr.exhausted ≠ .http 429 :=
  ⟨rfl, rfl, by decide⟩

/-- C5 amended: `fetchJsonWithRetries` makes at most `retries + 1` total
attempts; when every attempt fails transiently the call surfaces a failure —
never data — and that failure is the last recorded one (e.g. the last non-503
5xx status); but a run whose failures were all 429/503 surfaces the generic
retries-exhausted error, since that branch records no status. -/
theorem retry_exhaustion_amended :
    (∀ (resp : Nat → AttemptOutcome) (retries : Nat),
        (fetchJsonWithRetries resp retries).attemptsMade ≤ retries + 1) ∧
    (∀ (resp : Nat → AttemptOutcome) (retries : Nat),
        (∀ i, i ≤ retries → transientOutcome (resp i) = true) →
        ∃ e, (fetchJsonWithRetries resp retries).result = .error e) ∧
    (∀ (resp : Nat → AttemptOutcome) (retries : Nat) (r : HttpResp),
        (∀ i, i < retries → transientOutcome (resp i) = true) →
        resp retries = .success r → 500 ≤ r.status → r.status ≠ 503 →
        (fetchJsonWithRetries resp retries).result = .error (.http r.status)) := by
  refine ⟨?_, ?_, ?_⟩
  · intro resp retries
    simpa using fetchGo_calls_le resp (retries + 1) 0 none [] 0
  · intro resp retries hall
    exact fetchGo_all_transient resp (retries + 1) 0 none [] 0
      (fun j _ hj2 => hall j (by omega))
  · intro resp retries r hall hr h5 hne
    exact fetchGo_last_http resp retries r hr h5 hne (retries + 1) 0 none [] 0
      (by omega) (by omega) (fun j _ hj2 => hall j hj2)

/-- Witness for `retry_exhaustion_amended`: two attempts of plain 500s
surface `HTTP 500`. -/
theorem retry_exhaustion_amended_witness :
    ((500 : Nat) ≤ 500 ∧ (500 : Nat) ≠ 503) ∧
    (fetchJsonWithRetries (fun _ => .success ⟨500, none, "", "", none⟩) 1).result =
      .error (.http 500) :=
  ⟨⟨by decide, by decide⟩,
    retry_exhaustion_amended.2.2 (fun _ => .success ⟨500, none, "", "", none⟩) 1
      ⟨500, none, "", "", none⟩ (fun i _ => rfl) rfl (by decide) (by decide)⟩

/-! ## Claim theorems: pagination (C2), failure propagation (C6), fallback (C7) -/

theorem pagerLoop_stop (prim : Nat → Except FetchErr JsVal) :
    ∀ (n fuel i : Nat) (acc : List NRec) (d : JsVal),
      n < fuel →
      (∀ j, j < n → pageContinues (prim (i + j)) = true) →
      prim (i + n) = .ok d → cursorOf d = none →
      ∃ recs, pagerLoop prim fuel i acc = some (.ok recs, i + n + 1) := by
  intro n
  induction n with
  | zero =>
    intro fuel i acc d hfuel _ hp hcur
    rw [Nat.add_zero] at hp
    rcases fuel with _ | f
    · omega
    · rcases htr : truthy d with _ | _
      · exact ⟨acc, by simp [pagerLoop, hp, htr]⟩
      · exact ⟨acc ++ pageRecords d, by simp [pagerLoop, hp, htr, hcur]⟩
  | succ n ih =>
    intro fuel i acc d hfuel hcont hp hcur
    have h0 := hcont 0 (by omega)
    rw [Nat.add_zero] at h0
    rcases hpi : prim i with e | d0
    · rw [hpi] at h0
      simp [pageContinues] at h0
    · rw [hpi] at h0
      simp only [pageContinues, Bool.and_eq_true, Option.isSome_iff_exists] at h0
      obtain ⟨htr, c, hc⟩ := h0
      rcases fuel with _ | f
      · omega
      · have hrec := ih f (i + 1) (acc ++ pageRecords d0) d (by omega)
          (fun j hj => by
            have := hcont (j + 1) (by omega)
            rwa [show i + (j + 1) = i + 1 + j by omega] at this)
          (by rwa [show i + 1 + n = i + (n + 1) by omega])
          hcur
        obtain ⟨recs, hrecs⟩ := hrec
        rw [show i + 1 + n + 1 = i + (n + 1) + 1 by omega] at hrecs
        exact ⟨recs, by simp only [pagerLoop, hpi, htr, if_true, hc]; exact hrecs⟩

theorem pagerLoop_abort (prim : Nat → Except FetchErr JsVal) :
    ∀ (n fuel i : Nat) (acc : List NRec) (e : FetchErr),
      n < fuel →
      (∀ j, j < n → pageContinues (prim (i + j)) = true) →
      prim (i + n) = .error e →
      pagerLoop prim fuel i acc = some (.error e, i + n + 1) := by
  intro n
  induction n with
  | zero =>
    intro fuel i acc e hfuel _ hp
    rw [Nat.add_zero] at hp
    rcases fuel with _ | f
    · omega
    · simp [pagerLoop, hp]
  | succ n ih =>
    intro fuel i acc e hfuel hcont hp
    have h0 := hcont 0 (by omega)
    rw [Nat.add_zero] at h0
    rcases hpi : prim i with e0 | d0
    · rw [hpi] at h0
      simp [pageContinues] at h0
    · rw [hpi] at h0
      simp only [pageContinues, Bool.and_eq_true, Option.isSome_iff_exists] at h0
      obtain ⟨htr, c, hc⟩ := h0
      rcases fuel with _ | f
      · omega
      · have hrec := ih f (i + 1) (acc ++ pageRecords d0) e (by omega)
          (fun j hj => by
            have := hcont (j + 1) (by omega)
            rwa [show i + (j + 1) = i + 1 + j by omega] at this)
          (by rwa [show i + 1 + n = i + (n + 1) by omega])
        rw [show i + 1 + n + 1 = i + (n + 1) + 1 by omega] at hrec
        simp only [pagerLoop, hpi, htr, if_true, hc]
        exact hrec

/-- C2: the pager issues exactly one transport request per page and stops at
the first page whose continuation cursor is absent (whatever further pages
would say); concretely, pages `[{data:[a], cursor:"x"}, {data:[b], cursor:null}]`
yield `[a, b]` in exactly 2 calls, and a first page with no records and no
cursor ends the loop immediately with result `[]` after exactly 1 call. -/
theorem pager_termination_call_count :
    (∀ (prim : Nat → Except FetchErr JsVal) (n fuel : Nat) (d : JsVal),
        n < fuel →
        (∀ j, j < n → pageContinues (prim j) = true) →
        prim n = .ok d → cursorOf d = none →
        ∃ recs, pagerLoop prim fuel 0 [] = some (.ok recs, n + 1)) ∧
    pagerLoop prim2 5 0 [] =
      some (.ok [⟨.num 1, .str "A", .num 10⟩, ⟨.num 2, .str "B", .num 20⟩], 2) ∧
    pagerLoop (fun _ => .ok emptyPage) 5 0 [] = some (.ok [], 1) := by
  refine ⟨?_, rfl, rfl⟩
  intro prim n fuel d hfuel hcont hp hcur
  have := pagerLoop_stop prim n fuel 0 [] d hfuel
    (fun j hj => by simpa using hcont j hj) (by simpa using hp) hcur
  simpa using this

/-- Witness for `pager_termination_call_count` (first conjunct) at the
single empty cursorless page. -/
theorem pager_termination_call_count_witness :
    cursorOf emptyPage = none ∧
    ∃ recs, pagerLoop (fun _ => .ok emptyPage) 1 0 [] = some (.ok recs, 0 + 1) :=
  ⟨rfl,
    pager_termination_call_count.1 (fun _ => .ok emptyPage) 0 1 emptyPage
      (by decide) (fun j hj => absurd hj (by omega)) rfl rfl⟩

/-- C6: if any transport call during primary pagination fails, the whole
`fetchAllGamepassesForUser` fails with that very error — the records collected
from earlier pages are discarded (the outcome carries an error, not a partial
sequence) and the fallback is not consulted; and the coordinator delivers that
same error to every caller waiting on the key's in-flight task. -/
theorem failure_propagation :
    (∀ (prim : Nat → Except FetchErr JsVal) (fb : Except FetchErr JsVal)
        (n fuel : Nat) (e : FetchErr),
        n < fuel →
        (∀ j, j < n → pageContinues (prim j) = true) →
        prim n = .error e →
        fetchAllGamepassesForUser prim fb fuel = some ⟨.error e, n + 1, 0⟩) ∧
    (∀ (s : CoordState) (k : String) (t : Nat) (e : FetchErr) (now : Int) (cid : Nat),
        s.inFlight.lookup k = some t → (cid, t) ∈ s.waiting →
        (cid, TaskResult.err e) ∈ (stepComplete s k (.err e) now).received) := by
  constructor
  · intro prim fb n fuel e hfuel hcont hp
    have hloop := pagerLoop_abort prim n fuel 0 [] e hfuel
      (fun j hj => by simpa using hcont j hj) (by simpa using hp)
    rw [Nat.zero_add] at hloop
    simp [fetchAllGamepassesForUser, hloop]
  · intro s k t e now cid hlk hw
    simp only [stepComplete, hlk]
    refine List.mem_append_right _ ?_
    exact List.mem_map.mpr ⟨(cid, t), List.mem_filter.mpr ⟨hw, by simp⟩, rfl⟩

/-- Witness for `failure_propagation` at a first-call transport failure and a
one-waiter coordinator state. -/
theorem failure_propagation_witness :
    fetchAllGamepassesForUser (fun _ => .error (.http 500)) (.ok .null) 1 =
      some ⟨.error (.http 500), 1, 0⟩ ∧
    (7, TaskResult.err (.http 500)) ∈
      (stepComplete (CoordState.mk [("u", 4)] 5 ["u"] [(7, 4)] [] []) "u"
        (.err (.http 500)) 0).received :=
  ⟨failure_propagation.1 (fun _ => .error (.http 500)) (.ok .null) 0 1 (.http 500)
      (by decide) (fun j hj => absurd hj (by omega)) rfl,
    failure_propagation.2 (CoordState.mk [("u", 4)] 5 ["u"] [(7, 4)] [] []) "u" 4
      (.http 500) 0 7 rfl (by simp)⟩

/-- C7: if the primary traversal yields any non-empty record sequence the
fallback endpoint is never queried (0 fallback calls); if the primary
completes without error with zero records, the fallback is queried exactly
once, its failure is swallowed (overall result `ok []`, not a failure), and
with a data-envelope fallback response the overall result is exactly the
normalized fallback records. -/
theorem fallback_only_on_empty_primary :
    (∀ (prim : Nat → Except FetchErr JsVal) (fb : Except FetchErr JsVal)
        (fuel : Nat) (recs : List NRec) (n : Nat),
        pagerLoop prim fuel 0 [] = some (.ok recs, n) → recs ≠ [] →
        fetchAllGamepassesForUser prim fb fuel = some ⟨.ok recs, n, 0⟩) ∧
    (∀ (prim : Nat → Except FetchErr JsVal) (fb : Except FetchErr JsVal)
        (fuel n : Nat),
        pagerLoop prim fuel 0 [] = some (.ok [], n) →
        (∃ out : PagerOut, fetchAllGamepassesForUser prim fb fuel = some out ∧
            out.fbCalls = 1 ∧ ∃ recs, out.result = .ok recs) ∧
        (∀ e, fb = .error e →
            fetchAllGamepassesForUser prim fb fuel = some ⟨.ok [], n, 1⟩) ∧
        (∀ (fbv : JsVal) (xs : List JsVal), fb = .ok fbv → truthy fbv = true →
            getField fbv "data" = .arr xs →
            fetchAllGamepassesForUser prim fb fuel =
              some ⟨.ok (xs.filterMap normAlias), n, 1⟩)) := by
  constructor
  · intro prim fb fuel recs n hloop hne
    have hlen : ¬(recs.length = 0) := by
      simpa [List.length_eq_zero] using hne
    simp [fetchAllGamepassesForUser, hloop, hlen]
  · intro prim fb fuel n hloop
    refine ⟨?_, ?_, ?_⟩
    · rcases fb with e | fbv
      · exact ⟨⟨.ok [], n, 1⟩, by simp [fetchAllGamepassesForUser, hloop], rfl, [], rfl⟩
      · rcases hok : truthy fbv && isArrNonempty (getField fbv "data")
        · exact ⟨⟨.ok [], n, 1⟩, by simp [fetchAllGamepassesForUser, hloop, hok], rfl, [], rfl⟩
        · refine ⟨⟨.ok ((arrElems (getField fbv "data")).filterMap normAlias), n, 1⟩,
            by simp [fetchAllGamepassesForUser, hloop, hok], rfl, _, rfl⟩
    · intro e hfb
      subst hfb
      simp [fetchAllGamepassesForUser, hloop]
    · intro fbv xs hfb htr hdata
      subst hfb
      rcases xs with _ | ⟨x, xs2⟩
      · have hcond : (truthy fbv && isArrNonempty (getField fbv "data")) = false := by
          rw [hdata, htr]; rfl
        unfold fetchAllGamepassesForUser
        rw [hloop]
        dsimp only
        rw [if_pos (show ([] : List NRec).length = 0 from rfl)]
        rw [hcond]
        rfl
      · have hcond : (truthy fbv && isArrNonempty (getField fbv "data")) = true := by
          rw [hdata, htr]; rfl
        unfold fetchAllGamepassesForUser
        rw [hloop]
        dsimp only
        rw [if_pos (show ([] : List NRec).length = 0 from rfl)]
        rw [hcond, hdata]
        rfl

/-- Witness for `fallback_only_on_empty_primary` (second conjunct): empty
primary with a failing fallback yields `ok []` with exactly one fallback
call. -/
theorem fallback_only_on_empty_primary_witness :
    pagerLoop (fun _ => .ok emptyPage) 5 0 [] = some (.ok [], 1) ∧
    fetchAllGamepassesForUser (fun _ => .ok emptyPage) (.error .exhausted) 5 =
      some ⟨.ok [], 1, 1⟩ :=
  ⟨rfl,
    (fallback_only_on_empty_primary.2 (fun _ => .ok emptyPage) (.error .exhausted)
      5 1 rfl).2.1 .exhausted rfl⟩

/-! ## Claim theorems: in-flight coordination (C1) -/

/-- C1: with no traversal registered for key `k`, a first caller `a` registers
one and invokes the work exactly once; a second caller `b` arriving while it
is pending adds no further invocation; when the task completes (with any
result `r`, success or failure) both callers receive the identical `r`, the
in-flight registration for `k` is removed, and a subsequent caller `c` starts
a fresh traversal (a new invocation).  Moreover both coordinator steps
preserve the at-most-one-registration-per-key invariant (no duplicate keys in
the in-flight map). -/
theorem inflight_dedupe (s : CoordState) (a b c : Nat) (k : String) (r : TaskResult)
    (now : Int) (hnone : s.inFlight.lookup k = none) :
    (stepArrive s a k).invoked = k :: s.invoked ∧
    (stepArrive (stepArrive s a k) b k).invoked = k :: s.invoked ∧
    (a, r) ∈ (stepComplete (stepArrive (stepArrive s a k) b k) k r now).received ∧
    (b, r) ∈ (stepComplete (stepArrive (stepArrive s a k) b k) k r now).received ∧
    (stepComplete (stepArrive (stepArrive s a k) b k) k r now).inFlight.lookup k = none ∧
    (stepArrive (stepComplete (stepArrive (stepArrive s a k) b k) k r now) c k).invoked =
      k :: (stepComplete (stepArrive (stepArrive s a k) b k) k r now).invoked ∧
    (∀ (s2 : CoordState) (cid : Nat) (k2 : String),
        (s2.inFlight.map Prod.fst).Nodup →
        ((stepArrive s2 cid k2).inFlight.map Prod.fst).Nodup) ∧
    (∀ (s2 : CoordState) (k2 : String) (r2 : TaskResult) (now2 : Int),
        (s2.inFlight.map Prod.fst).Nodup →
        ((stepComplete s2 k2 r2 now2).inFlight.map Prod.fst).Nodup) := by
  have h5 : (stepComplete (stepArrive (stepArrive s a k) b k) k r now).inFlight.lookup k =
      none := by
    simp only [stepArrive, hnone, stepComplete, List.lookup, beq_self_eq_true]
    exact lookup_filter_ne_self _ _
  refine ⟨?_, ?_, ?_, ?_, h5, ?_, ?_, ?_⟩
  · simp [stepArrive, hnone]
  · simp [stepArrive, hnone, List.lookup]
  · simp only [stepArrive, hnone, stepComplete, List.lookup, beq_self_eq_true]
    simp [List.mem_append]
  · simp only [stepArrive, hnone, stepComplete, List.lookup, beq_self_eq_true]
    simp [List.mem_append]
  · have harr : ∀ s3 : CoordState, s3.inFlight.lookup k = none →
        (stepArrive s3 c k).invoked = k :: s3.invoked := by
      intro s3 h
      simp [stepArrive, h]
    exact harr _ h5
  · intro s2 cid k2 hnd
    unfold stepArrive
    rcases hl : s2.inFlight.lookup k2 with _ | t
    · dsimp only
      simp only [List.map_cons, List.nodup_cons]
      exact ⟨lookup_none_keys _ _ hl, hnd⟩
    · exact hnd
  · intro s2 k2 r2 now2 hnd
    unfold stepComplete
    rcases hl : s2.inFlight.lookup k2 with _ | t <;>
    · dsimp only
      exact List.Nodup.sublist ((List.filter_sublist _).map Prod.fst) hnd

/-- Witness for `inflight_dedupe` at the empty coordinator state. -/
theorem inflight_dedupe_witness :
    (CoordState.mk [] 0 [] [] [] []).inFlight.lookup "7" = none ∧
    (stepArrive (stepArrive (CoordState.mk [] 0 [] [] [] []) 1 "7") 2 "7").invoked = ["7"] :=
  ⟨rfl,
    (inflight_dedupe (CoordState.mk [] 0 [] [] [] []) 1 2 3 "7" (.ok []) 0 rfl).2.1⟩
